import Mathlib

/-!
Verification of the mypython tree-walking interpreter.

This file is a shallow embedding of the repository's core pipeline:
the lexer (src/Lexer.cpp), the environment (Env.hpp / Env.cpp), and the
interpreter (Interpreter.cpp together with the evaluate/execute methods
of the AST classes in Parser.hpp).  Pure C++ member functions become Lean
functions; the lexer's cursor and the interpreter's environment are passed
explicitly; C++ exceptions become Except values.  C++ `int` is modelled as
unbounded Int (overflow is undefined behaviour in the source); C++ `/` and
`%` on int are Int.tdiv and Int.tmod (truncation toward zero).  Indexing a
std::string at or past its size is modelled as yielding the NUL character
(the buffer is NUL-terminated at `size()`; reads further out are undefined
behaviour in C++ and are capped here).

Statement `execute` methods whose bodies live in the missing Parser.cpp
(BlockStmt, IfStmt, ReturnStmt, FunctionStmt, AssignStmt, CallExpr) are
modelled from the specification; each such definition is marked in its
doc comment.
-/

/-! ## Token model (Lexer.hpp, embedded in src/mypython.cpp lines 104-115) -/

/-- The TokenType enumeration from Lexer.hpp. -/
inductive TokenType where
  | INTEGER | PLUS | MINUS | MUL | DIV | LPAREN | RPAREN | IDENTIFIER | ASSIGN
  | END_OF_FILE | UNKNOWN | PRINT | SEMICOLON | IF | ELSE | STRING | COMMA
  | EQUAL | GREATER | LESS | NOT_EQUAL | GREATER_EQUAL | LESS_EQUAL | COLON | TAB
deriving DecidableEq, Repr

/-- A token: a kind together with its lexeme (struct Token in Lexer.hpp). -/
structure Token where
  type : TokenType
  lexeme : String
deriving DecidableEq, Repr

/-- The lexer's only failure (`throw std::runtime_error("Unterminated string.")`).
`fuelExhausted` is an artifact of the fuel-based embedding of the scanning
loop; it is proved unreachable. -/
inductive LexError where
  | unterminatedString
  | fuelExhausted
deriving DecidableEq, Repr

/-! ## Character classification (C locale ctype functions used by Lexer.cpp) -/

/-- C `isdigit`. -/
def cIsDigit (c : Char) : Bool := '0' ≤ c && c ≤ '9'

/-- C `isalpha` (ASCII, C locale). -/
def cIsAlpha (c : Char) : Bool := ('a' ≤ c && c ≤ 'z') || ('A' ≤ c && c ≤ 'Z')

/-- C `isalnum`. -/
def cIsAlnum (c : Char) : Bool := cIsAlpha c || cIsDigit c

/-- C `isspace` (C locale): space, tab, newline, vertical tab, form feed,
carriage return. -/
def cIsSpace (c : Char) : Bool :=
  c = ' ' || c = '\t' || c = '\n' || c = Char.ofNat 11 || c = Char.ofNat 12 || c = '\r'

/-! ## Lexer state helpers -/

/-- `source[i]`: indexing the source buffer; at or past the end this yields
the NUL character (see the module comment). -/
def getCh (src : List Char) (i : Nat) : Char := src.getD i (Char.ofNat 0)

/-- Number of leading characters of `l` satisfying `p`: the distance moved by
a C++ loop `while (p(source[i])) i++;` running over the suffix `l`. -/
def countWhile (p : Char → Bool) : List Char → Nat
  | [] => 0
  | c :: cs => if p c then countWhile p cs + 1 else 0

/-- `source.substr(a, b - a)`: the lexeme text between positions `a` and `b`. -/
def sliceAt (src : List Char) (a b : Nat) : String :=
  String.mk ((src.drop a).take (b - a))

/-! ## Lexer handlers (src/Lexer.cpp)

Each handler takes the source and the cursor `cur` (the C++ member
`current`, already past the character that selected the handler) and
returns the emitted tokens together with the new cursor. -/

/-- `Lexer::tokenizeGreater` (src/Lexer.cpp lines 89-96): look at
`source[current + 1]`; on a space emit `>=` and advance, else emit `>`. -/
def tokenizeGreater (src : List Char) (cur : Nat) : List Token × Nat :=
  if getCh src (cur + 1) = ' ' then ([⟨TokenType.GREATER_EQUAL, ">="⟩], cur + 1)
  else ([⟨TokenType.GREATER, ">"⟩], cur)

/-- `Lexer::tokenizeLess` (src/Lexer.cpp lines 97-104). -/
def tokenizeLess (src : List Char) (cur : Nat) : List Token × Nat :=
  if getCh src (cur + 1) = ' ' then ([⟨TokenType.LESS_EQUAL, "<="⟩], cur + 1)
  else ([⟨TokenType.LESS, "<"⟩], cur)

/-- `Lexer::tokenizeNotEqual` (src/Lexer.cpp lines 105-111): on a space at
`source[current + 1]` emit `!=` and advance; otherwise emit nothing at all. -/
def tokenizeNotEqual (src : List Char) (cur : Nat) : List Token × Nat :=
  if getCh src (cur + 1) = ' ' then ([⟨TokenType.NOT_EQUAL, "!="⟩], cur + 1)
  else ([], cur)

/-- `Lexer::tokenizeEqual` (src/Lexer.cpp lines 114-122): on a space at
`source[current + 1]` emit `==` and advance (consuming whatever character
sits at `current`), else emit `=`. -/
def tokenizeEqual (src : List Char) (cur : Nat) : List Token × Nat :=
  if getCh src (cur + 1) = ' ' then ([⟨TokenType.EQUAL, "=="⟩], cur + 1)
  else ([⟨TokenType.ASSIGN, "="⟩], cur)

/-- `Lexer::tokenizeIdentifier` (src/Lexer.cpp lines 142-161): consume
alphanumeric characters from `cur`, then classify the lexeme spanning from
`start` against the keyword table (print, if, else). -/
def tokenizeIdentifier (src : List Char) (start cur : Nat) : List Token × Nat :=
  let idEnd := cur + countWhile cIsAlnum (src.drop cur)
  let text := sliceAt src start idEnd
  let tok :=
    if text = "print" then Token.mk TokenType.PRINT text
    else if text = "if" then Token.mk TokenType.IF text
    else if text = "else" then Token.mk TokenType.ELSE text
    else Token.mk TokenType.IDENTIFIER text
  ([tok], idEnd)

/-- `Lexer::tokenizeNumber` (src/Lexer.cpp lines 124-140): consume digits,
then run `while (!isspace(source[lookahead])) lookahead++;` — the scan stops
only on a whitespace character (capped at the end of the buffer, where the
C++ code reads past the string) — and test `isalpha` of the character found
there.  Because that character is whitespace (or NUL at the cap), the
identifier branch mirrors dead code.
`digitEnd` is the cursor after the digit-consuming loop (the C++ `current`
when the lookahead starts). -/
def digitEnd (src : List Char) (start : Nat) : Nat :=
  (start + 1) + countWhile cIsDigit (src.drop (start + 1))

/-- The `lookahead` cursor after the loop
`while (!isspace(source[lookahead])) lookahead++;` of `Lexer::tokenizeNumber`
(src/Lexer.cpp lines 128-129), starting from the end of the digit run. -/
def numLookahead (src : List Char) (start : Nat) : Nat :=
  digitEnd src start + countWhile (fun c => !cIsSpace c) (src.drop (digitEnd src start))

def tokenizeNumber (src : List Char) (start : Nat) : List Token × Nat :=
  if cIsAlpha (getCh src (numLookahead src start)) then
    tokenizeIdentifier src start (numLookahead src start)
  else
    ([⟨TokenType.INTEGER, sliceAt src start (digitEnd src start)⟩], digitEnd src start)

/-- `Lexer::tokenizeString` (src/Lexer.cpp lines 163-181), as the offset of
the closing quote relative to the character after the opening quote: the
loop skips an extra character after a backslash and fails if the end of the
input is reached first. -/
def strScan : List Char → Option Nat
  | [] => none
  | c :: cs =>
    if c = '"' then some 0
    else if c = '\\' then
      match cs with
      | [] => none
      | _ :: cs2 => (strScan cs2).map (· + 2)
    else (strScan cs).map (· + 1)

/-- `Lexer::tokenizeString` (src/Lexer.cpp lines 163-181): `start` is the
opening quote.  On success the lexeme is the text strictly between the
quotes and the cursor moves past the closing quote. -/
def tokenizeString (src : List Char) (start : Nat) :
    Except LexError (List Token × Nat) :=
  match strScan (src.drop (start + 1)) with
  | none => .error .unterminatedString
  | some off =>
    let closing := start + 1 + off
    .ok ([⟨TokenType.STRING, sliceAt src (start + 1) closing⟩], closing + 1)

/-- `Lexer::scanToken` (src/Lexer.cpp lines 54-85): dispatch on the character
at `cur` (already consumed by `advance()`, so the handlers start at
`cur + 1`). -/
def scanTok (src : List Char) (cur : Nat) : Except LexError (List Token × Nat) :=
  if getCh src cur = '+' then .ok ([⟨TokenType.PLUS, "+"⟩], cur + 1)
  else if getCh src cur = '-' then .ok ([⟨TokenType.MINUS, "-"⟩], cur + 1)
  else if getCh src cur = '*' then .ok ([⟨TokenType.MUL, "*"⟩], cur + 1)
  else if getCh src cur = '/' then .ok ([⟨TokenType.DIV, "/"⟩], cur + 1)
  else if getCh src cur = '(' then .ok ([⟨TokenType.LPAREN, "("⟩], cur + 1)
  else if getCh src cur = ')' then .ok ([⟨TokenType.RPAREN, ")"⟩], cur + 1)
  else if getCh src cur = ',' then .ok ([⟨TokenType.COMMA, ","⟩], cur + 1)
  else if getCh src cur = ':' then .ok ([⟨TokenType.COLON, ":"⟩], cur + 1)
  else if getCh src cur = '>' then .ok (tokenizeGreater src (cur + 1))
  else if getCh src cur = '<' then .ok (tokenizeLess src (cur + 1))
  else if getCh src cur = '!' then .ok (tokenizeNotEqual src (cur + 1))
  else if getCh src cur = '=' then .ok (tokenizeEqual src (cur + 1))
  else if getCh src cur = '"' then tokenizeString src cur
  else if getCh src cur = '#' then
    .ok ([], (cur + 1) + countWhile (fun ch => !(ch = '\n')) (src.drop (cur + 1)))
  else if cIsDigit (getCh src cur) then .ok (tokenizeNumber src cur)
  else if cIsAlpha (getCh src cur) then .ok (tokenizeIdentifier src cur (cur + 1))
  else if !cIsSpace (getCh src cur) then
    .ok ([⟨TokenType.UNKNOWN, String.mk [getCh src cur]⟩], cur + 1)
  else .ok ([], cur + 1)

/-- The scanning loop of `Lexer::tokenize` (src/Lexer.cpp lines 30-39),
fuel-indexed (the fuel is proved sufficient below): scan lexemes until the
cursor reaches the end, then append the end-of-file token. -/
def lexLoop : Nat → List Char → Nat → Except LexError (List Token)
  | 0, _, _ => .error .fuelExhausted
  | fuel + 1, src, cur =>
    if cur < src.length then
      match scanTok src cur with
      | .error e => .error e
      | .ok (ts, cur') =>
        match lexLoop fuel src cur' with
        | .error e => .error e
        | .ok rest => .ok (ts ++ rest)
    else .ok [⟨TokenType.END_OF_FILE, ""⟩]

/-- `Lexer::tokenize` (src/Lexer.cpp lines 30-39). -/
def tokenize (s : String) : Except LexError (List Token) :=
  lexLoop (s.toList.length + 1) s.toList 0

/-! ## Runtime error taxonomy (§7 of the spec; `std::runtime_error` throws in
the source, distinguished here by their message). `fuelOut` is an artifact
of the fuel-based embedding of the mutually recursive tree walk. -/

/-- Runtime errors of evaluation and execution. -/
inductive RTError where
  | undefinedVariable (name : String)
  | undefinedFunction (name : String)
  | arityMismatch (name : String)
  | divisionByZero
  | unsupportedOperator
  | fuelOut
deriving DecidableEq, Repr

/-- The return signal (`ReturnValue` exception): either a statement completed
normally or a `return` is unwinding with its carried integer. -/
inductive ExecFlow where
  | normal
  | returned (v : Int)
deriving DecidableEq, Repr

/-! ## AST (Parser.hpp, src/unnamed/part_001) -/

/-- Expression nodes: LiteralExpr, StringLiteralExpr, VarExpr, AssignExpr,
BinaryExpr (operator tag is a TokenType, as in the source) and CallExpr. -/
inductive Expr where
  | lit (value : Int)
  | str (value : String)
  | var (name : String)
  | assign (name : String) (value : Expr)
  | binary (left : Expr) (op : TokenType) (right : Expr)
  | call (functionName : String) (arguments : List Expr)

/-- Statement nodes: ExpressionStmt, PrintStmt, IfStmt, BlockStmt,
FunctionStmt (definition) and ReturnStmt. -/
inductive Stmt where
  | exprStmt (e : Expr)
  | print (expressions : List Expr)
  | ifStmt (condition : Expr) (ifBranch : Stmt) (elseBranch : Option Stmt)
  | block (statements : List Stmt)
  | funcDef (name : String) (parameters : List String) (body : Stmt)
  | ret (returnValue : Option Expr)

/-- A stored function definition: the parameter list and body of a
FunctionStmt, as kept in `Environment::functions`. -/
structure FunctionDef where
  parameters : List String
  body : Stmt

/-- One scope record of the Environment class (src/unnamed/part_000 lines
65-120): the `values` map and the `functions` map.  The parent pointer is
represented by the tail of the scope-chain list below. -/
structure EnvFrame where
  values : List (String × Int)
  funcs : List (String × FunctionDef)

/-- A scope chain, innermost frame first.  `Environment* parent` becomes the
tail of the list; the global environment is the last frame. -/
abbrev Env := List EnvFrame

/-- A frame with empty maps (a freshly constructed Environment). -/
def emptyFrame : EnvFrame := ⟨[], []⟩

/-- `map[name] = v` on an association list: overwrite the existing entry or
append a new one (std::unordered_map operator[] assignment). -/
def setAssoc {α : Type} : List (String × α) → String → α → List (String × α)
  | [], n, v => [(n, v)]
  | (k, w) :: rest, n, v =>
    if k = n then (k, v) :: rest else (k, w) :: setAssoc rest n v

/-- `map.count(name)` / `map[name]` lookup on an association list. -/
def getAssoc {α : Type} : List (String × α) → String → Option α
  | [], _ => none
  | (k, w) :: rest, n => if k = n then some w else getAssoc rest n

/-- `Environment::define` (src/unnamed/part_000 lines 84-86) applied to the
innermost frame of the chain: `values[name] = value`. -/
def defineVar : Env → String → Int → Env
  | [], _, _ => []
  | f :: p, n, v => { f with values := setAssoc f.values n v } :: p

/-- `Environment::get` (src/unnamed/part_000 lines 95-104, identically
src/Env.hpp lines 40-48): look in the own `values` map, else recurse into
the parent, else fail with the undefined-variable error. -/
def envGet : Env → String → Except RTError Int
  | [], n => .error (.undefinedVariable n)
  | f :: p, n =>
    match getAssoc f.values n with
    | some v => .ok v
    | none => envGet p n

/-- `Environment::defineFunction` (src/Env.cpp lines 4-6) applied to the
innermost frame: `functions[name] = function`. -/
def defineFun : Env → String → FunctionDef → Env
  | [], _, _ => []
  | f :: p, n, fd => { f with funcs := setAssoc f.funcs n fd } :: p

/-- `Environment::getFunction` (src/Env.cpp lines 8-16): look in the own
`functions` map, else recurse into the parent, else fail. -/
def getFunction : Env → String → Except RTError FunctionDef
  | [], n => .error (.undefinedFunction n)
  | f :: p, n =>
    match getAssoc f.funcs n with
    | some fd => .ok fd
    | none => getFunction p n

/-- `Environment::mergeChanges` (src/unnamed/part_000 lines 107-112): write
every entry of the child's own `values` map into this (the parent) frame's
`values` map; the `functions` map is not merged. -/
def mergeChanges (parent child : EnvFrame) : EnvFrame :=
  { parent with
    values := child.values.foldl (fun acc kv => setAssoc acc kv.1 kv.2) parent.values }

/-- Merge a finished block child frame back into the enclosing chain:
`env.mergeChanges(child)` where `env` is the innermost enclosing frame. -/
def mergeBack : Env → EnvFrame → Env
  | [], _ => []
  | p :: rest, child => mergeChanges p child :: rest

/-- The parameter-binding loop of `Interpreter::callFunction`
(src/Interpreter.cpp lines 68-70): define each parameter to its argument in
the fresh local environment. -/
def bindParams (parameters : List String) (arguments : List Int) : EnvFrame :=
  ⟨(parameters.zip arguments).foldl (fun acc pa => setAssoc acc pa.1 pa.2) [], []⟩

/-- The operator switch of `BinaryExpr::evaluate` (src/unnamed/part_001
lines 97-125).  `/` is C++ truncating division `leftVal / rightVal`
(Int.tdiv) decremented when `(leftVal < 0) ^ (rightVal < 0)` and
`leftVal % rightVal != 0` (Int.tmod); division by zero and operator tags
outside the switch (NOT_EQUAL among them) throw. -/
def applyBinary (op : TokenType) (leftVal rightVal : Int) : Except RTError Int :=
  match op with
  | .PLUS => .ok (leftVal + rightVal)
  | .MINUS => .ok (leftVal - rightVal)
  | .MUL => .ok (leftVal * rightVal)
  | .DIV =>
    if rightVal = 0 then .error .divisionByZero
    else
      let result := leftVal.tdiv rightVal
      if (decide (leftVal < 0) != decide (rightVal < 0))
          && (leftVal.tmod rightVal != 0) then .ok (result - 1)
      else .ok result
  | .EQUAL => .ok (if leftVal = rightVal then 1 else 0)
  | .LESS_EQUAL => .ok (if leftVal ≤ rightVal then 1 else 0)
  | .LESS => .ok (if leftVal < rightVal then 1 else 0)
  | .GREATER => .ok (if rightVal < leftVal then 1 else 0)
  | .GREATER_EQUAL => .ok (if rightVal ≤ leftVal then 1 else 0)
  | _ => .error .unsupportedOperator

/-! ## The tree walk

Mutually recursive over a fuel parameter (the C++ recursion is bounded only
by the host stack; every recursive step consumes one unit).  Evaluation
returns the value, the updated scope chain and the output printed while
evaluating; execution returns the control-flow signal instead of a value. -/

mutual

/-- `Expr::evaluate` dispatch: LiteralExpr (src/unnamed/part_001 lines
143-145), StringLiteralExpr (line 234, returns 0), VarExpr (lines 162-164),
AssignExpr (lines 183-187), BinaryExpr (lines 93-126).  CallExpr::evaluate
is modelled from the spec §4.3: evaluate the arguments left to right
(`CallExpr::convertArgumentsToValues`, lines 254-260), then invoke
`Interpreter::callFunction`. -/
def evalExpr : Nat → Expr → Env → Except RTError (Int × Env × List String)
  | 0, _, _ => .error .fuelOut
  | fuel + 1, e, env =>
    match e with
    | .lit n => .ok (n, env, [])
    | .str _ => .ok (0, env, [])
    | .var name =>
      match envGet env name with
      | .ok v => .ok (v, env, [])
      | .error er => .error er
    | .assign name value =>
      match evalExpr fuel value env with
      | .error er => .error er
      | .ok (v, env1, out) => .ok (v, defineVar env1 name v, out)
    | .binary l op r =>
      match evalExpr fuel l env with
      | .error er => .error er
      | .ok (leftVal, env1, out1) =>
        match evalExpr fuel r env1 with
        | .error er => .error er
        | .ok (rightVal, env2, out2) =>
          match applyBinary op leftVal rightVal with
          | .error er => .error er
          | .ok v => .ok (v, env2, out1 ++ out2)
    | .call fname args =>
      match evalArgs fuel args env with
      | .error er => .error er
      | .ok (vals, env1, out1) =>
        match callFunction fuel fname vals env1 with
        | .error er => .error er
        | .ok (v, out2) => .ok (v, env1, out1 ++ out2)

/-- `CallExpr::convertArgumentsToValues` (src/unnamed/part_001 lines
254-260): evaluate each argument in order. -/
def evalArgs : Nat → List Expr → Env → Except RTError (List Int × Env × List String)
  | 0, _, _ => .error .fuelOut
  | _ + 1, [], env => .ok ([], env, [])
  | fuel + 1, a :: rest, env =>
    match evalExpr fuel a env with
    | .error er => .error er
    | .ok (v, env1, out1) =>
      match evalArgs fuel rest env1 with
      | .error er => .error er
      | .ok (vs, env2, out2) => .ok (v :: vs, env2, out1 ++ out2)

/-- The loop body of `PrintStmt::execute` (src/unnamed/part_001 lines
290-301): a StringLiteralExpr node prints its raw text, any other
expression prints its evaluated integer; every item is followed by one
space.  Returns the assembled line (without the final newline). -/
def printItems : Nat → List Expr → Env → Except RTError (String × Env × List String)
  | 0, _, _ => .error .fuelOut
  | _ + 1, [], env => .ok ("", env, [])
  | fuel + 1, e :: rest, env =>
    match e with
    | .str s =>
      match printItems fuel rest env with
      | .error er => .error er
      | .ok (line, env1, out) => .ok (s ++ " " ++ line, env1, out)
    | _ =>
      match evalExpr fuel e env with
      | .error er => .error er
      | .ok (v, env1, out1) =>
        match printItems fuel rest env1 with
        | .error er => .error er
        | .ok (line, env2, out2) => .ok (toString v ++ " " ++ line, env2, out1 ++ out2)

/-- `Stmt::execute` dispatch.  ExpressionStmt (src/unnamed/part_001 lines
310-312) and PrintStmt (lines 290-301) are from the source.  Modelled from
the spec: IfStmt (§4.4: nonzero condition runs the then branch, zero runs
the else branch if present), BlockStmt (§4.4: execute in one new child
environment and, on normal completion only, merge the child's own map back
into the parent via the source's `Environment::mergeChanges`; on a return
signal the child is discarded while the signal propagates), FunctionStmt
(§4.4: register the definition in the current environment's function
table), ReturnStmt (§4.4: evaluate the optional value, absent means 0, and
raise the return signal), whose `execute` bodies live in the repository's
missing Parser.cpp. -/
def execStmt : Nat → Stmt → Env → Except RTError (ExecFlow × Env × List String)
  | 0, _, _ => .error .fuelOut
  | fuel + 1, s, env =>
    match s with
    | .exprStmt e =>
      match evalExpr fuel e env with
      | .error er => .error er
      | .ok (_, env1, out) => .ok (.normal, env1, out)
    | .print es =>
      match printItems fuel es env with
      | .error er => .error er
      | .ok (line, env1, out) => .ok (.normal, env1, out ++ [line ++ "\n"])
    | .ifStmt c tBr eBr =>
      match evalExpr fuel c env with
      | .error er => .error er
      | .ok (v, env1, out1) =>
        if v ≠ 0 then
          match execStmt fuel tBr env1 with
          | .error er => .error er
          | .ok (fl, env2, out2) => .ok (fl, env2, out1 ++ out2)
        else
          match eBr with
          | none => .ok (.normal, env1, out1)
          | some br =>
            match execStmt fuel br env1 with
            | .error er => .error er
            | .ok (fl, env2, out2) => .ok (fl, env2, out1 ++ out2)
    | .block ss =>
      match execStmts fuel ss (emptyFrame :: env) with
      | .error er => .error er
      | .ok (.normal, env', out) =>
        match env' with
        | child :: parentChain => .ok (.normal, mergeBack parentChain child, out)
        | [] => .ok (.normal, [], out)
      | .ok (.returned v, env', out) => .ok (.returned v, env'.drop 1, out)
    | .funcDef name params body =>
      .ok (.normal, defineFun env name ⟨params, body⟩, [])
    | .ret e? =>
      match e? with
      | none => .ok (.returned 0, env, [])
      | some e =>
        match evalExpr fuel e env with
        | .error er => .error er
        | .ok (v, env1, out) => .ok (.returned v, env1, out)

/-- `Interpreter::executeBlock` (src/Interpreter.cpp lines 41-50): run the
statements in order against the given environment; a return signal raised
by a statement stops the loop and is rethrown. -/
def execStmts : Nat → List Stmt → Env → Except RTError (ExecFlow × Env × List String)
  | 0, _, _ => .error .fuelOut
  | _ + 1, [], env => .ok (.normal, env, [])
  | fuel + 1, s :: rest, env =>
    match execStmt fuel s env with
    | .error er => .error er
    | .ok (.returned v, env1, out) => .ok (.returned v, env1, out)
    | .ok (.normal, env1, out1) =>
      match execStmts fuel rest env1 with
      | .error er => .error er
      | .ok (fl, env2, out2) => .ok (fl, env2, out1 ++ out2)

/-- `Interpreter::callFunction` (src/Interpreter.cpp lines 54-79): resolve
the function through the scope chain, build one fresh local environment
whose parent is the environment active at the call site, check the argument
count against the parameter count, bind parameters, execute the body, and
catch the return signal — its carried integer is the result, or 0 if the
body completes without one. -/
def callFunction : Nat → String → List Int → Env → Except RTError (Int × List String)
  | 0, _, _, _ => .error .fuelOut
  | fuel + 1, name, arguments, currentEnv =>
    match getFunction currentEnv name with
    | .error er => .error er
    | .ok functionStmt =>
      if arguments.length ≠ functionStmt.parameters.length then
        .error (.arityMismatch name)
      else
        let localEnvironment := bindParams functionStmt.parameters arguments :: currentEnv
        match execStmt fuel functionStmt.body localEnvironment with
        | .error er => .error er
        | .ok (.returned v, _, out) => .ok (v, out)
        | .ok (.normal, _, out) => .ok (0, out)

end

/-- Run a program (a top-level statement sequence) in a fresh global
environment, as `Interpreter::interpret` does with the parsed root. -/
def runProgram (fuel : Nat) (prog : List Stmt) : Except RTError (ExecFlow × Env × List String) :=
  execStmts fuel prog [emptyFrame]

/-- The output of a program run: the list of printed lines. -/
def runOutput (fuel : Nat) (prog : List Stmt) : Except RTError (List String) :=
  match runProgram fuel prog with
  | .error er => .error er
  | .ok (_, _, out) => .ok out

/-! ## Association-list lemmas -/

theorem getAssoc_setAssoc_self {α : Type} (m : List (String × α)) (n : String) (v : α) :
    getAssoc (setAssoc m n v) n = some v := by
  induction m with
  | nil => simp [setAssoc, getAssoc]
  | cons kv rest ih =>
    obtain ⟨k, w⟩ := kv
    by_cases h : k = n
    · simp [setAssoc, getAssoc, h]
    · simp [setAssoc, getAssoc, h, ih]

theorem getAssoc_setAssoc_ne {α : Type} (m : List (String × α)) (n n' : String) (v : α)
    (h : n ≠ n') : getAssoc (setAssoc m n v) n' = getAssoc m n' := by
  induction m with
  | nil => simp [setAssoc, getAssoc, h]
  | cons kv rest ih =>
    obtain ⟨k, w⟩ := kv
    by_cases hk : k = n
    · subst hk
      simp [setAssoc, getAssoc, h]
    · simp [setAssoc, getAssoc, hk, ih]

theorem getAssoc_foldl_setAssoc_not_mem {α : Type} (entries : List (String × α))
    (acc : List (String × α)) (n : String) (h : ∀ e ∈ entries, e.1 ≠ n) :
    getAssoc (entries.foldl (fun a kv => setAssoc a kv.1 kv.2) acc) n = getAssoc acc n := by
  induction entries generalizing acc with
  | nil => rfl
  | cons kv rest ih =>
    obtain ⟨k, w⟩ := kv
    have hk : k ≠ n := h (k, w) (by simp)
    rw [List.foldl_cons, ih (setAssoc acc k w) (fun e he => h e (by simp [he]))]
    exact getAssoc_setAssoc_ne acc k n w hk

theorem getAssoc_foldl_setAssoc {α : Type} (child : List (String × α))
    (parent : List (String × α)) (n : String) (v : α)
    (hnd : (child.map Prod.fst).Nodup) (h : getAssoc child n = some v) :
    getAssoc (child.foldl (fun a kv => setAssoc a kv.1 kv.2) parent) n = some v := by
  induction child generalizing parent with
  | nil => cases h
  | cons kv rest ih =>
    obtain ⟨k, w⟩ := kv
    rw [List.map_cons, List.nodup_cons] at hnd
    obtain ⟨hknot, hndrest⟩ := hnd
    by_cases hk : k = n
    · subst hk
      rw [getAssoc, if_pos rfl] at h
      cases h
      rw [List.foldl_cons,
        getAssoc_foldl_setAssoc_not_mem rest (setAssoc parent k v) k
          (fun e he hek => hknot (List.mem_map.mpr ⟨e, he, hek⟩))]
      exact getAssoc_setAssoc_self parent k v
    · rw [getAssoc, if_neg hk] at h
      rw [List.foldl_cons]
      exact ih (setAssoc parent k w) hndrest h

/-! ## Lexer scan lemmas -/

theorem countWhile_le (p : Char → Bool) (l : List Char) : countWhile p l ≤ l.length := by
  induction l with
  | nil => simp [countWhile]
  | cons c cs ih =>
    rw [countWhile]
    split
    · simpa using ih
    · simp

theorem countWhile_stop (p : Char → Bool) (l : List Char) (d : Char)
    (h : countWhile p l < l.length) : p (l.getD (countWhile p l) d) = false := by
  induction l with
  | nil => simp at h
  | cons c cs ih =>
    rw [countWhile] at h ⊢
    by_cases hp : p c
    · rw [if_pos hp] at h ⊢
      simpa using ih (by simpa using h)
    · rw [if_neg hp] at h ⊢
      simpa using hp

theorem getD_drop (src : List Char) (i k : Nat) (d : Char) :
    (src.drop i).getD k d = src.getD (i + k) d := by
  simp [List.getD_eq_getElem?_getD, List.getElem?_drop]

theorem cIsSpace_not_alpha {c : Char} (h : cIsSpace c = true) : cIsAlpha c = false := by
  simp only [cIsSpace, Bool.or_eq_true, decide_eq_true_eq] at h
  rcases h with ((((h | h) | h) | h) | h) | h <;> subst h <;> decide

/-- The guard of the identifier branch of `tokenizeNumber` is always false:
the buggy lookahead loop stops exactly on a whitespace character (or at the
end of the buffer, yielding NUL), which is never alphabetic. -/
theorem lookahead_guard_false (src : List Char) (dEnd : Nat) :
    cIsAlpha (getCh src (dEnd + countWhile (fun c => !cIsSpace c) (src.drop dEnd))) = false := by
  set k := countWhile (fun c => !cIsSpace c) (src.drop dEnd) with hk
  rcases Nat.lt_or_ge k (src.drop dEnd).length with hlt | hge
  · have hp := countWhile_stop (fun c => !cIsSpace c) (src.drop dEnd) (Char.ofNat 0) (hk ▸ hlt)
    rw [← hk] at hp
    have hsp : cIsSpace ((src.drop dEnd).getD k (Char.ofNat 0)) = true := by
      simpa using hp
    rw [getD_drop] at hsp
    exact cIsSpace_not_alpha hsp
  · have hlen : src.length ≤ dEnd + k := by
      rw [List.length_drop] at hge
      omega
    have hnul : getCh src (dEnd + k) = Char.ofNat 0 := by
      simp [getCh, List.getD_eq_getElem?_getD, List.getElem?_eq_none hlen]
    rw [hnul]
    decide

theorem tokenizeGreater_snd (src : List Char) (cur : Nat) :
    cur ≤ (tokenizeGreater src cur).2 := by
  rw [tokenizeGreater]
  split <;> simp

theorem tokenizeLess_snd (src : List Char) (cur : Nat) :
    cur ≤ (tokenizeLess src cur).2 := by
  rw [tokenizeLess]
  split <;> simp

theorem tokenizeNotEqual_snd (src : List Char) (cur : Nat) :
    cur ≤ (tokenizeNotEqual src cur).2 := by
  rw [tokenizeNotEqual]
  split <;> simp

theorem tokenizeEqual_snd (src : List Char) (cur : Nat) :
    cur ≤ (tokenizeEqual src cur).2 := by
  rw [tokenizeEqual]
  split <;> simp

theorem tokenizeIdentifier_snd (src : List Char) (start cur : Nat) :
    (tokenizeIdentifier src start cur).2 = cur + countWhile cIsAlnum (src.drop cur) := rfl

theorem digitEnd_ge (src : List Char) (start : Nat) : start + 1 ≤ digitEnd src start :=
  Nat.le_add_right _ _

theorem numLookahead_ge (src : List Char) (start : Nat) :
    digitEnd src start ≤ numLookahead src start :=
  Nat.le_add_right _ _

theorem tokenizeNumber_snd (src : List Char) (start : Nat) :
    start + 1 ≤ (tokenizeNumber src start).2 := by
  rw [tokenizeNumber]
  split
  · rw [tokenizeIdentifier_snd]
    have h1 := digitEnd_ge src start
    have h2 := numLookahead_ge src start
    omega
  · simp
    exact digitEnd_ge src start

theorem tokenizeString_snd (src : List Char) (start : Nat) (p : List Token × Nat)
    (h : tokenizeString src start = .ok p) : start + 2 ≤ p.2 := by
  rw [tokenizeString] at h
  split at h
  · cases h
  · cases h
    simp

theorem scanTok_progress (src : List Char) (cur : Nat) (ts : List Token) (cur' : Nat)
    (h : scanTok src cur = .ok (ts, cur')) : cur < cur' := by
  rw [scanTok] at h
  by_cases hc1 : getCh src cur = '+'
  · rw [if_pos hc1] at h; cases h; omega
  rw [if_neg hc1] at h
  by_cases hc2 : getCh src cur = '-'
  · rw [if_pos hc2] at h; cases h; omega
  rw [if_neg hc2] at h
  by_cases hc3 : getCh src cur = '*'
  · rw [if_pos hc3] at h; cases h; omega
  rw [if_neg hc3] at h
  by_cases hc4 : getCh src cur = '/'
  · rw [if_pos hc4] at h; cases h; omega
  rw [if_neg hc4] at h
  by_cases hc5 : getCh src cur = '('
  · rw [if_pos hc5] at h; cases h; omega
  rw [if_neg hc5] at h
  by_cases hc6 : getCh src cur = ')'
  · rw [if_pos hc6] at h; cases h; omega
  rw [if_neg hc6] at h
  by_cases hc7 : getCh src cur = ','
  · rw [if_pos hc7] at h; cases h; omega
  rw [if_neg hc7] at h
  by_cases hc8 : getCh src cur = ':'
  · rw [if_pos hc8] at h; cases h; omega
  rw [if_neg hc8] at h
  by_cases hc9 : getCh src cur = '>'
  · rw [if_pos hc9] at h
    injection h with hp
    have hle := tokenizeGreater_snd src (cur + 1)
    rw [hp] at hle
    simp at hle
    omega
  rw [if_neg hc9] at h
  by_cases hc10 : getCh src cur = '<'
  · rw [if_pos hc10] at h
    injection h with hp
    have hle := tokenizeLess_snd src (cur + 1)
    rw [hp] at hle
    simp at hle
    omega
  rw [if_neg hc10] at h
  by_cases hc11 : getCh src cur = '!'
  · rw [if_pos hc11] at h
    injection h with hp
    have hle := tokenizeNotEqual_snd src (cur + 1)
    rw [hp] at hle
    simp at hle
    omega
  rw [if_neg hc11] at h
  by_cases hc12 : getCh src cur = '='
  · rw [if_pos hc12] at h
    injection h with hp
    have hle := tokenizeEqual_snd src (cur + 1)
    rw [hp] at hle
    simp at hle
    omega
  rw [if_neg hc12] at h
  by_cases hc13 : getCh src cur = '"'
  · rw [if_pos hc13] at h
    have hle := tokenizeString_snd src cur (ts, cur') h
    simp at hle
    omega
  rw [if_neg hc13] at h
  by_cases hc14 : getCh src cur = '#'
  · rw [if_pos hc14] at h; cases h; omega
  rw [if_neg hc14] at h
  by_cases hc15 : cIsDigit (getCh src cur) = true
  · rw [if_pos hc15] at h
    injection h with hp
    have hle := tokenizeNumber_snd src cur
    rw [hp] at hle
    simp at hle
    omega
  rw [if_neg hc15] at h
  by_cases hc16 : cIsAlpha (getCh src cur) = true
  · rw [if_pos hc16] at h
    injection h with hp
    have hle := tokenizeIdentifier_snd src cur (cur + 1)
    rw [hp] at hle
    simp at hle
    omega
  rw [if_neg hc16] at h
  by_cases hc17 : (!cIsSpace (getCh src cur)) = true
  · rw [if_pos hc17] at h; cases h; omega
  rw [if_neg hc17] at h
  cases h; omega

theorem scanTok_error (src : List Char) (cur : Nat) (e : LexError)
    (h : scanTok src cur = .error e) :
    e = .unterminatedString ∧ getCh src cur = '"' := by
  rw [scanTok] at h
  by_cases hc1 : getCh src cur = '+'
  · rw [if_pos hc1] at h; cases h
  rw [if_neg hc1] at h
  by_cases hc2 : getCh src cur = '-'
  · rw [if_pos hc2] at h; cases h
  rw [if_neg hc2] at h
  by_cases hc3 : getCh src cur = '*'
  · rw [if_pos hc3] at h; cases h
  rw [if_neg hc3] at h
  by_cases hc4 : getCh src cur = '/'
  · rw [if_pos hc4] at h; cases h
  rw [if_neg hc4] at h
  by_cases hc5 : getCh src cur = '('
  · rw [if_pos hc5] at h; cases h
  rw [if_neg hc5] at h
  by_cases hc6 : getCh src cur = ')'
  · rw [if_pos hc6] at h; cases h
  rw [if_neg hc6] at h
  by_cases hc7 : getCh src cur = ','
  · rw [if_pos hc7] at h; cases h
  rw [if_neg hc7] at h
  by_cases hc8 : getCh src cur = ':'
  · rw [if_pos hc8] at h; cases h
  rw [if_neg hc8] at h
  by_cases hc9 : getCh src cur = '>'
  · rw [if_pos hc9] at h; cases h
  rw [if_neg hc9] at h
  by_cases hc10 : getCh src cur = '<'
  · rw [if_pos hc10] at h; cases h
  rw [if_neg hc10] at h
  by_cases hc11 : getCh src cur = '!'
  · rw [if_pos hc11] at h; cases h
  rw [if_neg hc11] at h
  by_cases hc12 : getCh src cur = '='
  · rw [if_pos hc12] at h; cases h
  rw [if_neg hc12] at h
  by_cases hc13 : getCh src cur = '"'
  · rw [if_pos hc13, tokenizeString] at h
    cases hS : strScan (src.drop (cur + 1)) with
    | none => rw [hS] at h; cases h; exact ⟨rfl, hc13⟩
    | some off => rw [hS] at h; cases h
  rw [if_neg hc13] at h
  by_cases hc14 : getCh src cur = '#'
  · rw [if_pos hc14] at h; cases h
  rw [if_neg hc14] at h
  by_cases hc15 : cIsDigit (getCh src cur) = true
  · rw [if_pos hc15] at h; cases h
  rw [if_neg hc15] at h
  by_cases hc16 : cIsAlpha (getCh src cur) = true
  · rw [if_pos hc16] at h; cases h
  rw [if_neg hc16] at h
  by_cases hc17 : (!cIsSpace (getCh src cur)) = true
  · rw [if_pos hc17] at h; cases h
  rw [if_neg hc17] at h
  cases h

/-- With sufficient fuel, the scanning loop either succeeds with a token list
ending in the end-of-file token, or fails with the unterminated-string error
— and then the source contains a double quote. -/
theorem lexLoop_total (fuel : Nat) :
    ∀ (src : List Char) (cur : Nat), src.length - cur < fuel →
    (∃ ts, lexLoop fuel src cur = .ok (ts ++ [⟨TokenType.END_OF_FILE, ""⟩])) ∨
    (lexLoop fuel src cur = .error .unterminatedString ∧ '"' ∈ src) := by
  induction fuel with
  | zero =>
    intro src cur hf
    omega
  | succ f ih =>
    intro src cur hf
    by_cases hc : cur < src.length
    · cases hs : scanTok src cur with
      | error e =>
        obtain ⟨he, hq⟩ := scanTok_error src cur e hs
        subst he
        right
        constructor
        · simp only [lexLoop, if_pos hc, hs]
        · have hv : src[cur] = '"' := by
            have hq2 := hq
            rw [getCh, List.getD_eq_getElem?_getD, List.getElem?_eq_getElem hc] at hq2
            simpa using hq2
          rw [← hv]
          exact List.getElem_mem hc
      | ok p =>
        obtain ⟨ts0, cur'⟩ := p
        have hprog := scanTok_progress src cur ts0 cur' hs
        have hf2 : src.length - cur' < f := by omega
        rcases ih src cur' hf2 with ⟨ts1, h1⟩ | ⟨h1, h2⟩
        · left
          refine ⟨ts0 ++ ts1, ?_⟩
          simp only [lexLoop, if_pos hc, hs, h1, List.append_assoc]
        · right
          refine ⟨?_, h2⟩
          simp only [lexLoop, if_pos hc, hs, h1]
    · left
      refine ⟨[], ?_⟩
      rw [lexLoop, if_neg hc]
      rfl

theorem tokenizeNumber_eq (src : List Char) (start : Nat) :
    tokenizeNumber src start =
      ([⟨TokenType.INTEGER, sliceAt src start (digitEnd src start)⟩], digitEnd src start) := by
  rw [tokenizeNumber, if_neg]
  rw [numLookahead]
  simp [lookahead_guard_false]

/-- C5: the claim says a maximal digit run followed by an alphabetic
character (as the next non-whitespace character) is re-scanned whole as an
identifier.  The code's lookahead loop advances while the character is NOT
whitespace, so it stops on a whitespace character (or the end of the
buffer), whose `isalpha` is always false: the identifier branch is dead and
`tokenizeNumber` always emits the digit run as an INTEGER token.  On the
input "3x " the lexer therefore produces INTEGER "3" followed by
IDENTIFIER "x", not the identifier "3x" the claim describes. -/
theorem C5_digit_run_never_rescanned_as_identifier :
    (∀ (src : List Char) (start : Nat),
      tokenizeNumber src start =
        ([⟨TokenType.INTEGER, sliceAt src start (digitEnd src start)⟩], digitEnd src start)) ∧
    tokenize "3x " = .ok [⟨TokenType.INTEGER, "3"⟩, ⟨TokenType.IDENTIFIER, "x"⟩,
      ⟨TokenType.END_OF_FILE, ""⟩] :=
  ⟨tokenizeNumber_eq, rfl⟩

/-- C6: scanning `>`, `<`, `!` or `=` (the handler receives the cursor just
past that character), the lexer inspects the character one past the cursor:
if it is a space, the compound token (`>=`, `<=`, `!=`, `==`) is emitted and
the cursor advances one extra character; otherwise the single-character
token is emitted (`>`, `<`, `=`), and a lone `!` emits no token at all. -/
theorem C6_compound_operator_lookahead :
    (∀ (src : List Char) (cur : Nat), getCh src (cur + 1) = ' ' →
      tokenizeGreater src cur = ([⟨TokenType.GREATER_EQUAL, ">="⟩], cur + 1) ∧
      tokenizeLess src cur = ([⟨TokenType.LESS_EQUAL, "<="⟩], cur + 1) ∧
      tokenizeNotEqual src cur = ([⟨TokenType.NOT_EQUAL, "!="⟩], cur + 1) ∧
      tokenizeEqual src cur = ([⟨TokenType.EQUAL, "=="⟩], cur + 1)) ∧
    (∀ (src : List Char) (cur : Nat), getCh src (cur + 1) ≠ ' ' →
      tokenizeGreater src cur = ([⟨TokenType.GREATER, ">"⟩], cur) ∧
      tokenizeLess src cur = ([⟨TokenType.LESS, "<"⟩], cur) ∧
      tokenizeNotEqual src cur = ([], cur) ∧
      tokenizeEqual src cur = ([⟨TokenType.ASSIGN, "="⟩], cur)) := by
  constructor
  · intro src cur h
    exact ⟨by rw [tokenizeGreater, if_pos h], by rw [tokenizeLess, if_pos h],
      by rw [tokenizeNotEqual, if_pos h], by rw [tokenizeEqual, if_pos h]⟩
  · intro src cur h
    exact ⟨by rw [tokenizeGreater, if_neg h], by rw [tokenizeLess, if_neg h],
      by rw [tokenizeNotEqual, if_neg h], by rw [tokenizeEqual, if_neg h]⟩

theorem C6_compound_operator_lookahead_witness :
    (getCh ['>', '=', ' '] 2 = ' ' ∧
      tokenizeGreater ['>', '=', ' '] 1 = ([⟨TokenType.GREATER_EQUAL, ">="⟩], 2)) ∧
    (getCh ['!', 'a'] 2 ≠ ' ' ∧ tokenizeNotEqual ['!', 'a'] 1 = ([], 1)) :=
  ⟨⟨rfl, (C6_compound_operator_lookahead.1 ['>', '=', ' '] 1 rfl).1⟩,
    ⟨by decide, (C6_compound_operator_lookahead.2 ['!', 'a'] 1 (by decide)).2.2.1⟩⟩

/-- C7: tokenize consumes any source completely: it either succeeds — and
then the token sequence ends with the end-of-file token — or fails with the
unterminated-string LexError, which requires a double quote in the source;
no other failure exists.  In particular the unterminated literal "abc
(opened, never closed) fails exactly that way. -/
theorem C7_tokenize_total_or_unterminated :
    (∀ s : String,
      (∃ ts, tokenize s = .ok (ts ++ [⟨TokenType.END_OF_FILE, ""⟩])) ∨
      (tokenize s = .error .unterminatedString ∧ '"' ∈ s.toList)) ∧
    tokenize "\"abc" = .error .unterminatedString := by
  constructor
  · intro s
    have := lexLoop_total (s.toList.length + 1) s.toList 0 (by omega)
    simpa [tokenize] using this
  · rfl

/-- C10: which token `tokenizeEqual` emits depends only on the character one
past its cursor (two past the `=` that selected it); the character at the
cursor itself is consumed without ever being compared to `=`.  On the input
"x =a " the `=` and the `a` become one `==` token and the identifier `a` is
dropped. -/
theorem C10_equal_decision_ignores_consumed_char :
    (∀ (src src2 : List Char) (cur cur2 : Nat),
      getCh src (cur + 1) = getCh src2 (cur2 + 1) →
      (tokenizeEqual src cur).1 = (tokenizeEqual src2 cur2).1) ∧
    tokenize "x =a " = .ok [⟨TokenType.IDENTIFIER, "x"⟩, ⟨TokenType.EQUAL, "=="⟩,
      ⟨TokenType.END_OF_FILE, ""⟩] := by
  constructor
  · intro src src2 cur cur2 h
    rw [tokenizeEqual, tokenizeEqual, h]
    by_cases hc : getCh src2 (cur2 + 1) = ' ' <;> simp [hc]
  · rfl

theorem C10_equal_decision_ignores_consumed_char_witness :
    (tokenizeEqual ['=', 'a', ' '] 1).1 = (tokenizeEqual ['=', '=', ' '] 1).1 :=
  C10_equal_decision_ignores_consumed_char.1 ['=', 'a', ' '] ['=', '=', ' '] 1 1 rfl

/-- C++ truncating division corrected by the source's opposite-signs test
equals Lean's flooring division Int.fdiv. -/
theorem tdiv_floor_adjust (a b : Int) (hb : b ≠ 0) :
    (if (decide (a < 0) != decide (b < 0)) && (a.tmod b != 0) then a.tdiv b - 1 else a.tdiv b)
      = a.fdiv b := by
  match a, b with
  | .ofNat m, .ofNat n =>
    have h1 : ¬((Int.ofNat m) < 0) := Int.not_lt.mpr (Int.ofNat_nonneg m)
    have h2 : ¬((Int.ofNat n) < 0) := Int.not_lt.mpr (Int.ofNat_nonneg n)
    simp only [decide_eq_false h1, decide_eq_false h2, bne_self_eq_false, Bool.false_and,
      Bool.false_eq_true, if_false]
    cases m with
    | zero => simp [Int.tdiv, Int.fdiv, Nat.zero_div]
    | succ m' => rfl
  | .ofNat m, .negSucc n =>
    have h1 : ¬((Int.ofNat m) < 0) := Int.not_lt.mpr (Int.ofNat_nonneg m)
    have h2 : (Int.negSucc n) < 0 := Int.negSucc_lt_zero n
    simp only [decide_eq_false h1, decide_eq_true h2, Bool.false_bne, Bool.true_and]
    have htm : (Int.ofNat m).tmod (Int.negSucc n) = Int.ofNat (m % (n + 1)) := rfl
    by_cases hm : m % (n + 1) = 0
    · have hz : (Int.ofNat m).tmod (Int.negSucc n) = 0 := by rw [htm, hm]; rfl
      simp only [hz, bne_self_eq_false, Bool.false_eq_true, if_false]
      have hdvd : (n + 1 : Nat) ∣ m := Nat.dvd_of_mod_eq_zero hm
      cases m with
      | zero => simp [Int.tdiv, Int.fdiv, Nat.zero_div]
      | succ m' =>
        show -(Int.ofNat ((m' + 1) / (n + 1))) = Int.negSucc (m' / (n + 1))
        have hsd : (m' + 1) / (n + 1) = m' / (n + 1) + (if (n+1) ∣ (m'+1) then 1 else 0) :=
          Nat.succ_div m' (n+1)
        rw [if_pos hdvd] at hsd
        rw [hsd, Int.negSucc_eq]
        simp only [Int.ofNat_eq_natCast]
        push_cast
        ring
    · have hz : (Int.ofNat m).tmod (Int.negSucc n) ≠ 0 := by
        rw [htm]
        exact fun hc => hm (by exact_mod_cast Int.ofNat_inj.mp hc)
      simp only [bne_iff_ne, ne_eq, hz, not_false_eq_true, if_true]
      have hndvd : ¬((n + 1 : Nat) ∣ (m)) := fun hd => hm (Nat.mod_eq_zero_of_dvd hd)
      cases m with
      | zero => exact absurd rfl hm
      | succ m' =>
        show -(Int.ofNat ((m' + 1) / (n + 1))) - 1 = Int.negSucc (m' / (n + 1))
        have hsd : (m' + 1) / (n + 1) = m' / (n + 1) + (if (n+1) ∣ (m'+1) then 1 else 0) :=
          Nat.succ_div m' (n+1)
        rw [if_neg hndvd] at hsd
        rw [hsd, Int.negSucc_eq]
        simp only [Int.ofNat_eq_natCast]
        push_cast
        ring
  | .negSucc m, .ofNat n =>
    have h1 : (Int.negSucc m) < 0 := Int.negSucc_lt_zero m
    have h2 : ¬((Int.ofNat n) < 0) := Int.not_lt.mpr (Int.ofNat_nonneg n)
    have hn : n ≠ 0 := fun h => hb (by rw [h]; rfl)
    obtain ⟨k, rfl⟩ := Nat.exists_eq_succ_of_ne_zero hn
    simp only [decide_eq_true h1, decide_eq_false h2, Bool.bne_false, Bool.true_and]
    have htm : (Int.negSucc m).tmod (Int.ofNat (k+1)) = -Int.ofNat ((m+1) % (k + 1)) := rfl
    by_cases hm : (m+1) % (k + 1) = 0
    · have hz : (Int.negSucc m).tmod (Int.ofNat (k+1)) = 0 := by rw [htm, hm]; rfl
      simp only [hz, bne_self_eq_false, Bool.false_eq_true, if_false]
      have hdvd : (k + 1 : Nat) ∣ (m+1) := Nat.dvd_of_mod_eq_zero hm
      show -(Int.ofNat ((m + 1) / (k + 1))) = Int.negSucc (m / (k + 1))
      have hsd : (m + 1) / (k + 1) = m / (k + 1) + (if (k+1) ∣ (m+1) then 1 else 0) :=
        Nat.succ_div m (k+1)
      rw [if_pos hdvd] at hsd
      rw [hsd, Int.negSucc_eq]
      simp only [Int.ofNat_eq_natCast]
      push_cast
      ring
    · have hz : (Int.negSucc m).tmod (Int.ofNat (k+1)) ≠ 0 := by
        rw [htm]
        intro hc
        apply hm
        have := Int.neg_eq_zero.mp hc
        exact_mod_cast Int.ofNat_inj.mp this
      simp only [bne_iff_ne, ne_eq, hz, not_false_eq_true, if_true]
      have hndvd : ¬((k + 1 : Nat) ∣ (m+1)) := fun hd => hm (Nat.mod_eq_zero_of_dvd hd)
      show -(Int.ofNat ((m + 1) / (k + 1))) - 1 = Int.negSucc (m / (k + 1))
      have hsd : (m + 1) / (k + 1) = m / (k + 1) + (if (k+1) ∣ (m+1) then 1 else 0) :=
        Nat.succ_div m (k+1)
      rw [if_neg hndvd] at hsd
      rw [hsd, Int.negSucc_eq]
      simp only [Int.ofNat_eq_natCast]
      push_cast
      ring
  | .negSucc m, .negSucc n =>
    have h1 : (Int.negSucc m) < 0 := Int.negSucc_lt_zero m
    have h2 : (Int.negSucc n) < 0 := Int.negSucc_lt_zero n
    simp only [decide_eq_true h1, decide_eq_true h2, bne_self_eq_false, Bool.false_and,
      Bool.false_eq_true, if_false]
    rfl

/-- C1: for nonzero `b`, evaluating the binary division `a / b` yields the
mathematical floor of a divided by b (Int.fdiv): C++ truncating division
decremented by one exactly when the operands have opposite signs and the
division is inexact. -/
theorem C1_division_evaluates_to_floor (fuel : Nat) (a b : Int) (env : Env) (hb : b ≠ 0) :
    evalExpr (fuel + 2) (.binary (.lit a) .DIV (.lit b)) env = .ok (a.fdiv b, env, []) := by
  simp only [evalExpr, applyBinary]
  rw [if_neg hb]
  rw [← apply_ite Except.ok]
  simp only [tdiv_floor_adjust a b hb, List.append_nil]

theorem C1_division_evaluates_to_floor_witness :
    evalExpr 2 (.binary (.lit (-7)) .DIV (.lit 2)) [emptyFrame]
      = .ok (Int.fdiv (-7) 2, [emptyFrame], []) ∧ Int.fdiv (-7) 2 = -4 ∧
    evalExpr 2 (.binary (.lit 7) .DIV (.lit (-2))) [emptyFrame]
      = .ok (Int.fdiv 7 (-2), [emptyFrame], []) ∧ Int.fdiv 7 (-2) = -4 ∧
    evalExpr 2 (.binary (.lit 7) .DIV (.lit 2)) [emptyFrame]
      = .ok (Int.fdiv 7 2, [emptyFrame], []) ∧ Int.fdiv 7 2 = 3 :=
  ⟨C1_division_evaluates_to_floor 0 (-7) 2 [emptyFrame] (by decide), by decide,
    C1_division_evaluates_to_floor 0 7 (-2) [emptyFrame] (by decide), by decide,
    C1_division_evaluates_to_floor 0 7 2 [emptyFrame] (by decide), by decide⟩

/-- C8: variable lookup (`VarExpr::evaluate` via `Environment::get`) walks
the chain from the innermost frame outward, the first frame binding the
name wins, and the lookup fails with the undefined-variable error exactly
when no frame of the chain binds the name; defining the name in an ancestor
frame beforehand makes the lookup succeed. -/
theorem C8_variable_lookup_walks_chain :
    (∀ (env : Env) (name : String),
      envGet env name = .error (.undefinedVariable name) ↔
        ∀ f ∈ env, getAssoc f.values name = none) ∧
    (∀ (f : EnvFrame) (p : Env) (name : String) (v : Int),
      getAssoc f.values name = some v → envGet (f :: p) name = .ok v) ∧
    (∀ (f : EnvFrame) (p : Env) (name : String),
      getAssoc f.values name = none → envGet (f :: p) name = envGet p name) ∧
    (∀ (fuel : Nat) (env : Env) (name : String),
      evalExpr (fuel + 1) (.var name) env =
        match envGet env name with
        | .ok v => .ok (v, env, [])
        | .error er => .error er) ∧
    (∀ (pre : Env) (g : EnvFrame) (post : Env) (name : String) (v : Int),
      (∀ f ∈ pre, getAssoc f.values name = none) →
      envGet (pre ++ defineVar (g :: post) name v) name = .ok v) := by
  refine ⟨?_, ?_, ?_, ?_, ?_⟩
  · intro env name
    induction env with
    | nil => simp [envGet]
    | cons f p ih =>
      rw [envGet]
      cases hf : getAssoc f.values name with
      | some v => simp [hf]
      | none => simpa [hf] using ih
  · intro f p name v h
    rw [envGet, h]
  · intro f p name h
    rw [envGet, h]
  · intro fuel env name
    rw [evalExpr]
  · intro pre g post name v h
    induction pre with
    | nil =>
      rw [List.nil_append, defineVar, envGet, getAssoc_setAssoc_self]
    | cons f pre2 ih =>
      rw [List.cons_append, envGet, h f (by simp)]
      exact ih (fun f2 hf2 => h f2 (by simp [hf2]))

theorem C8_variable_lookup_walks_chain_witness :
    envGet [⟨[("y", 9)], []⟩, ⟨[("x", 5)], []⟩] "x" = .ok 5 ∧
    envGet (([⟨[("y", 9)], []⟩] : Env) ++ defineVar [emptyFrame] "x" 7) "x" = .ok 7 ∧
    (envGet [⟨[("y", 9)], []⟩] "x" = .error (.undefinedVariable "x") ↔
      ∀ f ∈ ([⟨[("y", 9)], []⟩] : Env), getAssoc f.values "x" = none) :=
  ⟨by
    have h2 := C8_variable_lookup_walks_chain.2.2.1 ⟨[("y", 9)], []⟩
      [⟨[("x", 5)], []⟩] "x" rfl
    rw [h2]
    exact C8_variable_lookup_walks_chain.2.1 ⟨[("x", 5)], []⟩ [] "x" 5 rfl,
   C8_variable_lookup_walks_chain.2.2.2.2 [⟨[("y", 9)], []⟩] emptyFrame [] "x" 7
     (by intro f hf; simp at hf; subst hf; rfl),
   C8_variable_lookup_walks_chain.1 [⟨[("y", 9)], []⟩] "x"⟩

/-- C2: a block executes its statements in a fresh child frame; when they
all complete normally the child's own map is merged back into the enclosing
frame (`Environment::mergeChanges`, last write per name winning), so a name
assigned inside the block keeps its value after the block: every name bound
in the child frame resolves to the child's value after the merge, and the
program x = 1; { x = 2 }; print x prints 2. -/
theorem C2_block_merges_into_parent :
    (∀ (p : EnvFrame) (rest : Env) (child : EnvFrame) (name : String) (v : Int),
      (child.values.map Prod.fst).Nodup →
      getAssoc child.values name = some v →
      envGet (mergeBack (p :: rest) child) name = .ok v) ∧
    (∀ (fuel : Nat) (ss : List Stmt) (env : Env) (child : EnvFrame) (env2 : Env)
        (out : List String),
      execStmts fuel ss (emptyFrame :: env) = .ok (.normal, child :: env2, out) →
      execStmt (fuel + 1) (.block ss) env = .ok (.normal, mergeBack env2 child, out)) ∧
    runOutput 20 [.exprStmt (.assign "x" (.lit 1)), .block [.exprStmt (.assign "x" (.lit 2))],
      .print [.var "x"]] = .ok ["2 \n"] := by
  refine ⟨?_, ?_, rfl⟩
  · intro p rest child name v hnd h
    rw [mergeBack, envGet]
    have : getAssoc (mergeChanges p child).values name = some v := by
      rw [mergeChanges]
      exact getAssoc_foldl_setAssoc child.values p.values name v hnd h
    rw [this]
  · intro fuel ss env child env2 out h
    rw [execStmt, h]

theorem C2_block_merges_into_parent_witness :
    envGet (mergeBack [emptyFrame] ⟨[("x", 2)], []⟩) "x" = .ok 2 ∧
    execStmt 5 (.block [.exprStmt (.assign "x" (.lit 2))]) [⟨[("x", 1)], []⟩]
      = .ok (.normal, mergeBack [⟨[("x", 1)], []⟩] ⟨[("x", 2)], []⟩, []) :=
  ⟨C2_block_merges_into_parent.1 emptyFrame [] ⟨[("x", 2)], []⟩ "x" 2 (by simp) rfl,
   C2_block_merges_into_parent.2.1 4 [.exprStmt (.assign "x" (.lit 2))] [⟨[("x", 1)], []⟩]
     ⟨[("x", 2)], []⟩ [⟨[("x", 1)], []⟩] [] rfl⟩

/-- C3: a function call executes its body in a fresh environment chained to
the environment active at the call site (dynamic chaining): a free variable
of the body resolves through the caller's chain, and the differentiating
program x = 1; def f: return x; def g: x = 2; return f(); print g() prints
2 (the value at f's call site inside g), not 1 (the value where f was
defined). -/
theorem C3_call_chains_to_call_site :
    (∀ (fuel : Nat) (env : Env) (fname x : String) (v : Int),
      getFunction env fname = .ok ⟨[], .ret (some (.var x))⟩ →
      envGet env x = .ok v →
      callFunction (fuel + 3) fname [] env = .ok (v, [])) ∧
    runOutput 30
      [.exprStmt (.assign "x" (.lit 1)),
       .funcDef "f" [] (.ret (some (.var "x"))),
       .funcDef "g" [] (.block [.exprStmt (.assign "x" (.lit 2)),
         .ret (some (.call "f" []))]),
       .print [.call "g" []]] = .ok ["2 \n"] := by
  refine ⟨?_, rfl⟩
  intro fuel env fname x v hf hx
  simp only [callFunction, hf]
  rw [if_neg (by simp)]
  simp only [execStmt, evalExpr]
  have h2 : envGet (bindParams [] [] :: env) x = envGet env x := rfl
  rw [h2, hx]

theorem C3_call_chains_to_call_site_witness :
    callFunction 3 "f" [] [⟨[("x", 42)], [("f", ⟨[], .ret (some (.var "x"))⟩)]⟩]
      = .ok (42, []) :=
  C3_call_chains_to_call_site.1 0 [⟨[("x", 42)], [("f", ⟨[], .ret (some (.var "x"))⟩)]⟩]
    "f" "x" 42 rfl rfl

/-- C4: the return signal stops the statement loop — once a statement of a
sequence raises it, the remaining statements never run — and the call
boundary catches it: a body raising the signal with value v makes the call
yield v; a body completing normally makes the call yield 0.  The body
return 5; print 999 yields 5 and prints nothing. -/
theorem C4_return_short_circuits_and_yields :
    (∀ (fuel : Nat) (s : Stmt) (rest : List Stmt) (env env2 : Env) (v : Int)
        (out : List String),
      execStmt fuel s env = .ok (.returned v, env2, out) →
      execStmts (fuel + 1) (s :: rest) env = .ok (.returned v, env2, out)) ∧
    (∀ (fuel : Nat) (name : String) (args : List Int) (env : Env) (f : FunctionDef),
      getFunction env name = .ok f →
      args.length = f.parameters.length →
      (∀ (v : Int) (env2 : Env) (out : List String),
        execStmt fuel f.body (bindParams f.parameters args :: env)
          = .ok (.returned v, env2, out) →
        callFunction (fuel + 1) name args env = .ok (v, out)) ∧
      (∀ (env2 : Env) (out : List String),
        execStmt fuel f.body (bindParams f.parameters args :: env)
          = .ok (.normal, env2, out) →
        callFunction (fuel + 1) name args env = .ok (0, out))) ∧
    callFunction 20 "f" []
      [⟨[], [("f", ⟨[], .block [.ret (some (.lit 5)), .print [.lit 999]]⟩)]⟩]
      = .ok (5, []) := by
  refine ⟨?_, ?_, rfl⟩
  · intro fuel s rest env env2 v out h
    rw [execStmts, h]
  · intro fuel name args env f hf hlen
    constructor
    · intro v env2 out h
      simp only [callFunction, hf]
      rw [if_neg (by simp [hlen])]
      simp only [h]
    · intro env2 out h
      simp only [callFunction, hf]
      rw [if_neg (by simp [hlen])]
      simp only [h]

theorem C4_return_short_circuits_and_yields_witness :
    execStmts 3 [Stmt.ret (some (.lit 5)), .print [.lit 999]] [emptyFrame]
      = .ok (.returned 5, [emptyFrame], []) ∧
    callFunction 4 "f" [] [⟨[], [("f", ⟨[], .ret (some (.lit 7))⟩)]⟩] = .ok (7, []) :=
  ⟨C4_return_short_circuits_and_yields.1 2 (Stmt.ret (some (.lit 5))) [.print [.lit 999]]
      [emptyFrame] [emptyFrame] 5 [] rfl,
   (C4_return_short_circuits_and_yields.2.1 3 "f" [] [⟨[], [("f", ⟨[], .ret (some (.lit 7))⟩)]⟩]
      ⟨[], .ret (some (.lit 7))⟩ rfl rfl).1 7 (emptyFrame :: [⟨[], [("f", ⟨[], .ret (some (.lit 7))⟩)]⟩]) [] rfl⟩

/-- C9: a call whose argument count differs from the resolved function's
parameter count fails with the arity-mismatch error before the body runs
(the result is this error at every fuel level, so no body execution is ever
reached); calling a 2-parameter function with 1 argument fails this way. -/
theorem C9_arity_mismatch_checked_before_body :
    (∀ (fuel : Nat) (name : String) (args : List Int) (env : Env) (f : FunctionDef),
      getFunction env name = .ok f →
      args.length ≠ f.parameters.length →
      callFunction (fuel + 1) name args env = .error (.arityMismatch name)) ∧
    callFunction 20 "g" [1] [⟨[], [("g", ⟨["a", "b"], .ret (some (.lit 0))⟩)]⟩]
      = .error (.arityMismatch "g") := by
  refine ⟨?_, rfl⟩
  intro fuel name args env f hf hne
  simp only [callFunction, hf]
  rw [if_pos hne]

theorem C9_arity_mismatch_checked_before_body_witness :
    callFunction 1 "g" [1] [⟨[], [("g", ⟨["a", "b"], .ret (some (.lit 0))⟩)]⟩]
      = .error (.arityMismatch "g") :=
  C9_arity_mismatch_checked_before_body.1 0 "g" [1]
    [⟨[], [("g", ⟨["a", "b"], .ret (some (.lit 0))⟩)]⟩] ⟨["a", "b"], .ret (some (.lit 0))⟩
    rfl (by simp)
